import Mathlib

/-!
Verification development for the bcwallet HD-wallet core
(`src/bcwallet/bcwallet.py`).

The control-flow of `send_funds`, `sweep_funds_from_privkey`,
`register_unused_addresses` and their call sites is embedded directly from
the source.  The leaf operations that the source imports from helper
modules not present in the repository snapshot (the transaction verifier,
the signer, the address-path resolver, the key finder and BIP32
derivation) are modelled from the specification, each with a doc comment
saying so.
-/

namespace BCWallet

/-- The observable steps of the send/sweep pipelines, in the order the
source performs them. -/
inductive Event
  | createTx
  | verifyTx
  | findKeys
  | signTx
  | broadcastTx
deriving DecidableEq, Repr

/-- The external responses that drive `send_funds`
(`bcwallet.py` lines 340-516): connectivity, key capability, balance,
the unsigned-tx creation result, the verifier verdict, the key-finder
shortfall check, and the user's final confirmation. -/
structure SendEnv where
  online : Bool
  hasPrivKey : Bool
  finalBalance : Nat
  txHasErrors : Bool
  verifyOk : Bool
  allKeysFound : Bool
  userConfirms : Bool
deriving DecidableEq, Repr

/-- Trace of pipeline events produced by `send_funds`, embedded from
`bcwallet.py` lines 340-516: each early `return` (offline, public-only
wallet, zero balance, creation errors, verifier rejection) truncates the
trace, the key-finder shortfall raises before signing, and a declined
confirmation stops before broadcast. -/
def sendFundsTrace (e : SendEnv) : List Event :=
  if !e.online then []
  else if !e.hasPrivKey then []
  else if e.finalBalance = 0 then []
  else if e.txHasErrors then [Event.createTx]
  else if !e.verifyOk then [Event.createTx, Event.verifyTx]
  else if !e.allKeysFound then [Event.createTx, Event.verifyTx, Event.findKeys]
  else if !e.userConfirms then
    [Event.createTx, Event.verifyTx, Event.findKeys, Event.signTx]
  else
    [Event.createTx, Event.verifyTx, Event.findKeys, Event.signTx,
      Event.broadcastTx]

/-- The external responses that drive `sweep_funds_from_privkey`
(`bcwallet.py` lines 558-659). -/
structure SweepEnv where
  online : Bool
  txHasErrors : Bool
  verifyOk : Bool
deriving DecidableEq, Repr

/-- Trace of pipeline events produced by `sweep_funds_from_privkey`,
embedded from `bcwallet.py` lines 558-659: offline and creation-error
paths return early, a verifier rejection returns before signing, and on
acceptance the flow signs and broadcasts (the source has no final
confirmation prompt in this flow). -/
def sweepFundsTrace (e : SweepEnv) : List Event :=
  if !e.online then []
  else if e.txHasErrors then [Event.createTx]
  else if !e.verifyOk then [Event.createTx, Event.verifyTx]
  else [Event.createTx, Event.verifyTx, Event.signTx, Event.broadcastTx]

/-- The arguments `register_unused_addresses` sends to the remote
`derive_hd_address` endpoint (`bcwallet.py` lines 193-199). -/
structure DeriveApiCall where
  numAddresses : Nat
  subchainIndex : Nat
deriving DecidableEq, Repr

/-- Embedded from `register_unused_addresses` (`bcwallet.py` lines
164-213): the remote derivation request always carries
`subchain_index=0`, ignoring the `subchain_index` argument the function
was given. -/
def registerUnusedAddressesCall (subchain_index : Nat) (num_addrs : Nat) :
    DeriveApiCall :=
  { numAddresses := num_addrs,
    subchainIndex := 0 }

/-- Embedded from `get_unused_receiving_addresses` (`bcwallet.py` lines
216-222): delegates with `subchain_index=0`. -/
def getUnusedReceivingAddressesCall (num_addrs : Nat) : DeriveApiCall :=
  registerUnusedAddressesCall 0 num_addrs

/-- Embedded from `get_unused_change_addresses` (`bcwallet.py` lines
225-230): delegates with `subchain_index=1`. -/
def getUnusedChangeAddressesCall (num_addrs : Nat) : DeriveApiCall :=
  registerUnusedAddressesCall 1 num_addrs

/-- Embedded from `send_funds` (`bcwallet.py` lines 392-395): the change
address comes from `get_unused_change_addresses` with one address. -/
def sendFundsChangeAddressCall : DeriveApiCall :=
  getUnusedChangeAddressesCall 1

/-- Modelled from the spec: (§3, §4.1; the BIP32 code the source imports
from `bitmerchant`/`bc_utils` is not in the snapshot): an extended key is
a public node plus optional private material.  The claims about
derivation (determinism, capability monotonicity, address comparison)
do not depend on the elliptic-curve arithmetic, which is abstracted by
the pure mixing function `childStep`. -/
structure ExtendedKey where
  pubPart : Nat
  privPart : Option Nat
deriving DecidableEq, Repr

/-- Modelled from the spec: pure stand-in for the BIP32 child-key
arithmetic. -/
def childStep (s : Nat) (i : Nat) : Nat :=
  (2 * s + 3) * (2 * i + 5) + 7

/-- Modelled from the spec: (§4.1 `deriveChild`): non-hardened child
derivation; private material is carried along exactly when the parent
has it. -/
def deriveChild (k : ExtendedKey) (i : Nat) : ExtendedKey :=
  { pubPart := childStep k.pubPart i,
    privPart := k.privPart.map (fun s => childStep s i) }

/-- Modelled from the spec: (§4.1 `derivePath`): repeated application of
`deriveChild` along the path. -/
def derivePath (master_key : ExtendedKey) (path : List Nat) : ExtendedKey :=
  path.foldl deriveChild master_key

/-- Modelled from the spec: (§4.1 `toAddress`): pure deterministic
encoding of the public part. -/
def toAddress (k : ExtendedKey) : String :=
  "1A" ++ toString k.pubPart

/-- Modelled from the spec: (§4.1 `toPublicKeyHex`). -/
def toPublicKeyHex (k : ExtendedKey) : String :=
  "02" ++ toString k.pubPart

/-- Modelled from the spec: (§7): errors for missing key capability. -/
inductive KeyMaterialError
  | noPrivateMaterial
  | privateKeyRequired
deriving DecidableEq, Repr

/-- Modelled from the spec: (§4.1 `toPrivateKeyHex`): fails with
`NoPrivateMaterial` on a public-only key. -/
def toPrivateKeyHex (k : ExtendedKey) : Except KeyMaterialError String :=
  match k.privPart with
  | none => .error .noPrivateMaterial
  | some s => .ok ("80" ++ toString s)

/-- Modelled from the spec: (§4.1 `toWIF`): fails with
`NoPrivateMaterial` on a public-only key. -/
def toWIF (k : ExtendedKey) : Except KeyMaterialError String :=
  match k.privPart with
  | none => .error .noPrivateMaterial
  | some s => .ok ("K" ++ toString s)

/-- An address/path pair as claimed by the untrusted remote service. -/
structure ClaimedAddr where
  address : String
  path : List Nat
deriving DecidableEq, Repr

/-- A resolved address record (§3 AddressRecord). -/
structure AddressRecord where
  address : String
  path : List Nat
  pubkeyhex : String
  privkeyhex : Option String
  wif : Option String
deriving DecidableEq, Repr

/-- The hard-stop error of the resolver (§4.2, §7). -/
structure AddressIntegrityViolation where
  claimed : String
  recomputed : String
  path : List Nat
deriving DecidableEq, Repr

/-- Modelled from the spec: (§4.2): per-record transform filling in the
derived public key, plus private fields when the master has private
material. -/
def fillRecord (master_key : ExtendedKey) (c : ClaimedAddr) : AddressRecord :=
  let k := derivePath master_key c.path
  { address := c.address,
    path := c.path,
    pubkeyhex := toPublicKeyHex k,
    privkeyhex := (toPrivateKeyHex k).toOption,
    wif := (toWIF k).toOption }

/-- Modelled from the spec: (§4.2 `verifyAndFillPaths`, the source's
`verify_and_fill_address_paths_from_bip32key` in `bc_utils`, not in the
snapshot): re-derives each claimed path from the master key, compares the
recomputed address byte-for-byte with the claimed one, hard-stops with
`AddressIntegrityViolation` on any mismatch, and otherwise returns the
records in input order. -/
def verifyAndFillPaths (master_key : ExtendedKey) :
    List ClaimedAddr → Except AddressIntegrityViolation (List AddressRecord)
  | [] => .ok []
  | c :: cs =>
    if toAddress (derivePath master_key c.path) = c.address then
      (verifyAndFillPaths master_key cs).map (fun rest => fillRecord master_key c :: rest)
    else
      .error ⟨c.address, toAddress (derivePath master_key c.path), c.path⟩

/-- A recovered keypair for one input address (§3 HexKeyPair). -/
structure HexKeyPair where
  address : String
  privkeyhex : String
  pubkeyhex : String
deriving DecidableEq, Repr

/-- Result of the bounded key search: resolved pairs plus the explicit
shortfall set (§4.3, §7). -/
structure KeyFinderResult where
  found : List HexKeyPair
  unresolved : List String
deriving DecidableEq, Repr

/-- Modelled from the spec: (§4.3): the candidate derivation paths the
finder visits, chain 0 and chain 1 at indices
`starting_pos, ..., starting_pos + depth - 1`. -/
def finderPaths (starting_pos depth : Nat) : List (List Nat) :=
  (List.range depth).flatMap
    (fun i => [[0, starting_pos + i], [1, starting_pos + i]])

/-- Modelled from the spec: (§4.3 `findKeypairsForAddresses`, the source's
`find_hexkeypairs_from_bip32key_bc` in `bc_utils`, not in the snapshot):
requires a private-capable master key, searches the bounded path grid for
each target address, and reports addresses not found as the `unresolved`
set instead of raising. -/
def finderSearch (pub_address_list : List String)
    (master_key : ExtendedKey) (starting_pos depth : Nat) :
    KeyFinderResult :=
  { found := pub_address_list.filterMap (fun a =>
      ((finderPaths starting_pos depth).find?
          (fun p => toAddress (derivePath master_key p) == a)).map
        (fun p =>
          { address := a,
            privkeyhex :=
              ((toPrivateKeyHex (derivePath master_key p)).toOption).getD "",
            pubkeyhex := toPublicKeyHex (derivePath master_key p) })),
    unresolved := pub_address_list.filter (fun a =>
      (finderPaths starting_pos depth).all
        (fun p => toAddress (derivePath master_key p) != a)) }

/-- Modelled from the spec: (§4.3, continued): the finder demands a
private-capable master key, else `PrivateKeyRequired`; otherwise it
performs the bounded search. -/
def findHexkeypairs (pub_address_list : List String)
    (master_key : ExtendedKey) (starting_pos depth : Nat) :
    Except KeyMaterialError KeyFinderResult :=
  match master_key.privPart with
  | none => .error .privateKeyRequired
  | some _ =>
    .ok (finderSearch pub_address_list master_key starting_pos depth)

/-- Error raised by the signer on mismatched list lengths (§4.5, §7). -/
inductive SignerError
  | arityMismatch
deriving DecidableEq, Repr

/-- Modelled from the spec: (§4.5): deterministic signature for one
signing hash with one private key; the ECDSA computation is abstracted
by a pure function of the pair. -/
def sigOf (tx_to_sign privkey : String) : String :=
  "30sig" ++ tx_to_sign ++ "with" ++ privkey

/-- Modelled from the spec: (§4.5 `sign`, the source's
`make_tx_signatures` from the blockcypher helper library, not in the
snapshot): demands the three lists have equal length, else
`ArityMismatch`; otherwise signs hash i with private key i, in input
order. -/
def makeTxSignatures (txs_to_sign privkey_list pubkey_list : List String) :
    Except SignerError (List String) :=
  if txs_to_sign.length = privkey_list.length ∧
      privkey_list.length = pubkey_list.length then
    .ok (List.zipWith sigOf txs_to_sign privkey_list)
  else
    .error .arityMismatch

/-- One transaction output: destination address and value in satoshis. -/
structure TxOutput where
  address : String
  value : Int
deriving DecidableEq, Repr

/-- The unsigned transaction proposal supplied by the untrusted service
(§3 UnsignedTransactionProposal): declared inputs, their total value,
outputs, fee, and the per-input signing-hash list. -/
structure Proposal where
  inputAddresses : List String
  inputTotal : Int
  outputs : List TxOutput
  fee : Int
  tosign : List String
deriving DecidableEq, Repr

/-- The user's original intent handed to the verifier: funding source,
requested outputs, optional change address, and sweep mode, mirroring the
arguments of `verify_unsigned_tx` at the call sites (`bcwallet.py`
lines 433-440 and 609-616). -/
structure SendRequest where
  sourceAddresses : List String
  reqOutputs : List TxOutput
  changeAddress : Option String
  sweepFunds : Bool
deriving DecidableEq, Repr

/-- The configured maximum fee fraction `maxNum / maxDen` (§4.4 step 4). -/
structure FeeConfig where
  maxNum : Nat
  maxDen : Nat
deriving DecidableEq, Repr

/-- Total value of a list of outputs. -/
def outTotal (outs : List TxOutput) : Int :=
  (outs.map TxOutput.value).sum

/-- Modelled from the spec: (§4.4 step 4): the amount the fee is compared
against — the requested output total for a normal send, the swept input
total for a sweep. -/
def transactedAmount (req : SendRequest) (p : Proposal) : Int :=
  if req.sweepFunds then p.inputTotal else outTotal req.reqOutputs

/-- Modelled from the spec: (§4.4 step 4): the fee must be non-negative
and below the configured maximum fraction of the transacted amount. -/
def feeWithinBounds (cfg : FeeConfig) (fee transacted : Int) : Bool :=
  decide (0 ≤ fee) &&
    decide (fee * (cfg.maxDen : Int) < (cfg.maxNum : Int) * transacted)

/-- The structured rejection reasons of the verifier (§4.4). -/
inductive RejectReason
  | unexpectedInput
  | outputMismatch
  | changeMismatch
  | feeOutOfBounds
  | malformedProposal
deriving DecidableEq, Repr

/-- Terminal states of the verifier state machine (§4.4). -/
inductive VerifyResult
  | accepted
  | rejected (reason : RejectReason)
deriving DecidableEq, Repr

/-- The human-readable text accompanying each rejection, naming the
mismatched field (§4.4: the verifier returns both a variant and a
human-readable reason). -/
def reasonText : RejectReason → String
  | .unexpectedInput =>
      "unexpected input: the proposal spends an input outside the requested funding source"
  | .outputMismatch =>
      "output mismatch: a destination address or amount deviates from the requested outputs"
  | .changeMismatch =>
      "change mismatch: the leftover value does not route to the supplied change address"
  | .feeOutOfBounds =>
      "fee out of bounds: the fee is negative or exceeds the configured maximum fraction of the amount transacted"
  | .malformedProposal =>
      "malformed proposal: missing signing hashes or malformed structure"

/-- Remove the first occurrence of `x`, or `none` if absent. -/
def removeFirst (x : TxOutput) : List TxOutput → Option (List TxOutput)
  | [] => none
  | y :: ys =>
    if y = x then some ys
    else (removeFirst x ys).map (fun l => y :: l)

/-- Remove one occurrence of every element of the first list from the
second, or `none` if some element is missing; the leftover outputs are
returned. -/
def removeAll : List TxOutput → List TxOutput → Option (List TxOutput)
  | [], l => some l
  | x :: xs, l =>
    match removeFirst x l with
    | none => none
    | some l2 => removeAll xs l2

/-- Modelled from the spec: (§4.4 step 3): what may remain in the
proposal's outputs once the requested outputs are accounted for — the
single change output carrying the leftover value, or nothing. -/
def expectedExtras (req : SendRequest) (p : Proposal) : List TxOutput :=
  match req.changeAddress with
  | none => []
  | some c =>
    let leftover := p.inputTotal - outTotal req.reqOutputs - p.fee
    if leftover = 0 then [] else [⟨c, leftover⟩]

/-- Modelled from the spec: (§4.4 `verify_unsigned_tx`, implemented in the
blockcypher helper library, not in the snapshot): sequential checks with
terminal states Accepted / Rejected(reason) — inputs must come from the
requested funding source; for a sweep the outputs must be exactly the
destination with no change; for a normal send the requested outputs must
all be present, at most one extra output may exist and it must be the
change output to the supplied change address with the leftover value;
the fee must be within the configured bound; the signing-hash list must
be present. -/
def verifyUnsignedTx (cfg : FeeConfig) (req : SendRequest) (p : Proposal) :
    VerifyResult :=
  if ¬ (p.inputAddresses.all (fun a => req.sourceAddresses.contains a)) then
    .rejected .unexpectedInput
  else if req.sweepFunds then
    match req.reqOutputs with
    | [o] =>
      if p.outputs.map TxOutput.address ≠ [o.address] then
        .rejected .outputMismatch
      else if feeWithinBounds cfg p.fee (transactedAmount req p) = false then
        .rejected .feeOutOfBounds
      else if p.tosign.isEmpty then
        .rejected .malformedProposal
      else
        .accepted
    | _ => .rejected .malformedProposal
  else
    match removeAll req.reqOutputs p.outputs with
    | none => .rejected .outputMismatch
    | some extras =>
      if 2 ≤ extras.length then
        .rejected .outputMismatch
      else if extras ≠ expectedExtras req p then
        match req.changeAddress with
        | none => .rejected .outputMismatch
        | some _ => .rejected .changeMismatch
      else if feeWithinBounds cfg p.fee (transactedAmount req p) = false then
        .rejected .feeOutOfBounds
      else if p.tosign.isEmpty then
        .rejected .malformedProposal
      else
        .accepted

/-- The request shape of the normal send flow (`bcwallet.py` lines
383-395, 433-440): wallet-sourced inputs, one requested output of amount
`A` to destination `D`, change to `C`, not a sweep. -/
def sendRequestFor (src D : String) (A : Int) (C : String) : SendRequest :=
  { sourceAddresses := [src],
    reqOutputs := [⟨D, A⟩],
    changeAddress := some C,
    sweepFunds := false }

/-- A proposal over one wallet input with the given outputs, fee and
input total, carrying one signing hash. -/
def sendProposalFor (src : String) (outs : List TxOutput)
    (fee inputTotal : Int) : Proposal :=
  { inputAddresses := [src],
    inputTotal := inputTotal,
    outputs := outs,
    fee := fee,
    tosign := ["hash0"] }

/-- The arguments `sweep_funds_from_privkey` passes to
`create_unsigned_tx` (`bcwallet.py` lines 582-597). -/
structure CreateTxCall where
  outputAddresses : List String
  changeAddress : Option String
deriving DecidableEq, Repr

/-- Embedded from `sweep_funds_from_privkey` (`bcwallet.py` lines
582-597): the transaction is built with a single sweep output to the
destination and `change_address=None`. -/
def sweepCreateTxCall (dest_addr : String) : CreateTxCall :=
  { outputAddresses := [dest_addr],
    changeAddress := none }

/-- Embedded from `sweep_funds_from_privkey` (`bcwallet.py` lines
572-586 and 609-616): the verification request uses the private key's
address as sole input, the sweep output (value `-1` marker, line 584) to
the destination, `sweep_funds=True` and `change_address=None`. -/
def sweepVerifyRequest (pkey_addr dest_addr : String) : SendRequest :=
  { sourceAddresses := [pkey_addr],
    reqOutputs := [⟨dest_addr, -1⟩],
    changeAddress := none,
    sweepFunds := true }

/-- A concrete accepted sweep proposal used to witness the sweep-mode
theorem. -/
def sweepProposalExample : Proposal :=
  { inputAddresses := ["s"],
    inputTotal := 60000,
    outputs := [⟨"D", 59000⟩],
    fee := 1000,
    tosign := ["hash0"] }

/-- Private material survives derivation exactly when the master has it. -/
theorem derivePath_privPart_isSome (master_key : ExtendedKey)
    (path : List Nat) :
    (derivePath master_key path).privPart.isSome
      = master_key.privPart.isSome := by
  induction path generalizing master_key with
  | nil => rfl
  | cons i rest ih =>
      have h1 : derivePath master_key (i :: rest)
          = derivePath (deriveChild master_key i) rest := rfl
      rw [h1, ih]
      cases h : master_key.privPart <;> simp [deriveChild, h]

/-- C1: in both the send and the sweep flow, a rejected verification
halts the pipeline before signing and broadcasting, and the signing step
is only ever reached after the verifier accepted the proposal. -/
theorem signing_only_after_verification :
    ∀ (e : SendEnv) (s : SweepEnv),
      (e.verifyOk = false →
        Event.signTx ∉ sendFundsTrace e ∧
        Event.broadcastTx ∉ sendFundsTrace e) ∧
      (Event.signTx ∈ sendFundsTrace e → e.verifyOk = true) ∧
      (s.verifyOk = false →
        Event.signTx ∉ sweepFundsTrace s ∧
        Event.broadcastTx ∉ sweepFundsTrace s) ∧
      (Event.signTx ∈ sweepFundsTrace s → s.verifyOk = true) := by
  intro e s
  refine ⟨?_, ?_, ?_, ?_⟩
  · intro hv
    constructor <;>
      · simp only [sendFundsTrace]
        split_ifs <;> simp_all
  · intro hmem
    by_contra hne
    have hv : e.verifyOk = false := by
      revert hne; cases e.verifyOk <;> simp
    simp only [sendFundsTrace] at hmem
    split_ifs at hmem <;> simp_all
  · intro hv
    constructor <;>
      · simp only [sweepFundsTrace]
        split_ifs <;> simp_all
  · intro hmem
    by_contra hne
    have hv : s.verifyOk = false := by
      revert hne; cases s.verifyOk <;> simp
    simp only [sweepFundsTrace] at hmem
    split_ifs at hmem <;> simp_all

/-- C10: `register_unused_addresses` always requests remote derivation on
subchain 0 (the external chain) regardless of its `subchain_index`
argument, so `get_unused_change_addresses` and the change-address call in
`send_funds` also request external-chain addresses. -/
theorem register_unused_addresses_subchain_zero :
    ∀ (subchain_index num_addrs : Nat),
      (registerUnusedAddressesCall subchain_index num_addrs).subchainIndex
          = 0 ∧
      (getUnusedChangeAddressesCall num_addrs).subchainIndex = 0 ∧
      sendFundsChangeAddressCall.subchainIndex = 0 := by
  intro subchain_index num_addrs
  exact ⟨rfl, rfl, rfl⟩

/-- C9: child-key derivation is a pure function of the master key and
the path: applying `derivePath` twice to the same inputs yields the same
extended key, the same address and the same public-key encoding; there
is no hidden state. -/
theorem derivation_deterministic (master_key : ExtendedKey)
    (path : List Nat) :
    derivePath master_key path = derivePath master_key path ∧
    toAddress (derivePath master_key path)
      = toAddress (derivePath master_key path) ∧
    toPublicKeyHex (derivePath master_key path)
      = toPublicKeyHex (derivePath master_key path) :=
  ⟨rfl, rfl, rfl⟩

/-- C7: a public-only master key yields derived keys with no private
material — `toPrivateKeyHex`/`toWIF` fail with `NoPrivateMaterial` and
resolver records carry no private fields — while a private-capable
master yields records that do carry private-key-hex and WIF fields. -/
theorem capability_monotonicity (master_key : ExtendedKey)
    (c : ClaimedAddr) (path : List Nat) :
    (master_key.privPart = none →
      toPrivateKeyHex (derivePath master_key path)
          = .error .noPrivateMaterial ∧
      toWIF (derivePath master_key path) = .error .noPrivateMaterial ∧
      (fillRecord master_key c).privkeyhex = none ∧
      (fillRecord master_key c).wif = none) ∧
    (master_key.privPart.isSome = true →
      (fillRecord master_key c).privkeyhex.isSome = true ∧
      (fillRecord master_key c).wif.isSome = true) := by
  constructor
  · intro hnone
    have hp : ∀ q : List Nat, (derivePath master_key q).privPart = none := by
      intro q
      have h1 := derivePath_privPart_isSome master_key q
      rw [hnone] at h1
      exact Option.not_isSome_iff_eq_none.mp (by simp [h1])
    refine ⟨?_, ?_, ?_, ?_⟩ <;>
      simp [toPrivateKeyHex, toWIF, fillRecord, hp, Except.toOption]
  · intro hsome
    have h1 := derivePath_privPart_isSome master_key c.path
    rw [hsome] at h1
    obtain ⟨s, hs⟩ := Option.isSome_iff_exists.mp h1
    simp [fillRecord, toPrivateKeyHex, toWIF, hs, Except.toOption]

/-- Closed instance of `capability_monotonicity`: a public-only master
key `⟨5, none⟩` produces a record with absent private fields and a
`NoPrivateMaterial` failure, and a private-capable master `⟨5, some 7⟩`
produces a record with both private fields present. -/
theorem capability_monotonicity_witness :
    (toPrivateKeyHex (derivePath ⟨5, none⟩ [0, 1])
        = .error .noPrivateMaterial ∧
      toWIF (derivePath ⟨5, none⟩ [0, 1]) = .error .noPrivateMaterial ∧
      (fillRecord ⟨5, none⟩ ⟨"a", [0]⟩).privkeyhex = none ∧
      (fillRecord ⟨5, none⟩ ⟨"a", [0]⟩).wif = none) ∧
    ((fillRecord ⟨5, some 7⟩ ⟨"a", [0]⟩).privkeyhex.isSome = true ∧
      (fillRecord ⟨5, some 7⟩ ⟨"a", [0]⟩).wif.isSome = true) :=
  ⟨(capability_monotonicity ⟨5, none⟩ ⟨"a", [0]⟩ [0, 1]).1 rfl,
    (capability_monotonicity ⟨5, some 7⟩ ⟨"a", [0]⟩ [0, 1]).2 rfl⟩

/-- C6: the signer fails with `ArityMismatch` whenever the signing-hash,
private-key and public-key lists do not all have the same length; on
three lists of equal length `N` it returns exactly `N` signatures, the
one at position `i` produced from the hash and private key at
position `i`. -/
theorem signer_arity :
    (∀ hs ks pbs : List String,
      ¬ (hs.length = ks.length ∧ ks.length = pbs.length) →
      makeTxSignatures hs ks pbs = .error .arityMismatch) ∧
    (∀ hs ks pbs : List String,
      hs.length = ks.length → ks.length = pbs.length →
      ∃ sigs, makeTxSignatures hs ks pbs = .ok sigs ∧
        sigs.length = hs.length ∧
        ∀ (i : Nat) (h1 : i < hs.length) (h2 : i < ks.length)
          (h3 : i < sigs.length),
          sigs[i] = sigOf hs[i] ks[i]) := by
  constructor
  · intro hs ks pbs hne
    simp [makeTxSignatures, hne]
  · intro hs ks pbs h1 h2
    refine ⟨List.zipWith sigOf hs ks, ?_, ?_, ?_⟩
    · simp [makeTxSignatures, h1, h2]
    · simp [List.length_zipWith, h1]
    · intro i hi1 hi2 hi3
      simp [List.getElem_zipWith]

/-- Closed instance of `signer_arity`: mismatched lists fail with
`ArityMismatch`; matched lists of length 1 return the one expected
signature. -/
theorem signer_arity_witness :
    makeTxSignatures ["h1"] [] [] = .error .arityMismatch ∧
    (∃ sigs, makeTxSignatures ["h1"] ["k1"] ["p1"] = .ok sigs ∧
      sigs.length = ["h1"].length ∧
      ∀ (i : Nat) (g1 : i < ["h1"].length) (g2 : i < ["k1"].length)
        (g3 : i < sigs.length),
        sigs[i] = sigOf ["h1"][i] ["k1"][i]) :=
  ⟨signer_arity.1 ["h1"] [] [] (by decide),
    signer_arity.2 ["h1"] ["k1"] ["p1"] rfl rfl⟩

/-- C4: the resolver fails with `AddressIntegrityViolation` whenever any
claimed record's address differs from the address recomputed from
`(masterKey, path)` — the violation names a mismatching record and its
recomputed address — and when every record matches byte-for-byte it
succeeds, returning the records in input order with address and path
unmodified, the derived public key filled in, and private fields exactly
when the master key has private material. -/
theorem resolver_soundness (master_key : ExtendedKey)
    (records : List ClaimedAddr) :
    ((∃ c ∈ records, c.address ≠ toAddress (derivePath master_key c.path)) →
      ∃ v, verifyAndFillPaths master_key records = .error v ∧
        v.recomputed = toAddress (derivePath master_key v.path) ∧
        v.claimed ≠ v.recomputed ∧
        (⟨v.claimed, v.path⟩ : ClaimedAddr) ∈ records) ∧
    ((∀ c ∈ records, c.address = toAddress (derivePath master_key c.path)) →
      verifyAndFillPaths master_key records
          = .ok (records.map (fillRecord master_key)) ∧
      ∀ c : ClaimedAddr,
        (fillRecord master_key c).address = c.address ∧
        (fillRecord master_key c).path = c.path ∧
        (fillRecord master_key c).pubkeyhex
            = toPublicKeyHex (derivePath master_key c.path) ∧
        (fillRecord master_key c).privkeyhex.isSome
            = master_key.privPart.isSome ∧
        (fillRecord master_key c).wif.isSome = master_key.privPart.isSome) := by
  have hfill : ∀ c : ClaimedAddr,
      (fillRecord master_key c).privkeyhex.isSome = master_key.privPart.isSome ∧
      (fillRecord master_key c).wif.isSome = master_key.privPart.isSome := by
    intro c
    rw [← derivePath_privPart_isSome master_key c.path]
    cases hs : (derivePath master_key c.path).privPart <;>
      simp [fillRecord, toPrivateKeyHex, toWIF, hs, Except.toOption]
  constructor
  · have hmain : ∀ rs : List ClaimedAddr,
        (∃ c ∈ rs, c.address ≠ toAddress (derivePath master_key c.path)) →
        ∃ v, verifyAndFillPaths master_key rs = .error v ∧
          v.recomputed = toAddress (derivePath master_key v.path) ∧
          v.claimed ≠ v.recomputed ∧
          (⟨v.claimed, v.path⟩ : ClaimedAddr) ∈ rs := by
      intro rs
      induction rs with
      | nil => intro h; simp at h
      | cons c cs ih =>
        intro h
        by_cases hc : toAddress (derivePath master_key c.path) = c.address
        · have htail : ∃ x ∈ cs,
              x.address ≠ toAddress (derivePath master_key x.path) := by
            rcases h with ⟨x, hx, hxne⟩
            rcases List.mem_cons.mp hx with rfl | hx2
            · exact absurd hc.symm hxne
            · exact ⟨x, hx2, hxne⟩
          rcases ih htail with ⟨v, hv1, hv2, hv3, hv4⟩
          refine ⟨v, ?_, hv2, hv3, List.mem_cons_of_mem c hv4⟩
          simp [verifyAndFillPaths, hc, hv1, Except.map]
        · refine ⟨⟨c.address, toAddress (derivePath master_key c.path),
            c.path⟩, ?_, rfl, ?_, ?_⟩
          · simp [verifyAndFillPaths, hc]
          · exact fun he => hc he.symm
          · exact List.mem_cons_self c cs
    exact hmain records
  · intro hall
    have hmain : ∀ rs : List ClaimedAddr,
        (∀ c ∈ rs, c.address = toAddress (derivePath master_key c.path)) →
        verifyAndFillPaths master_key rs
          = .ok (rs.map (fillRecord master_key)) := by
      intro rs
      induction rs with
      | nil => intro _; rfl
      | cons c cs ih =>
        intro h
        have hc := h c (List.mem_cons_self c cs)
        have ht := ih (fun x hx => h x (List.mem_cons_of_mem c hx))
        simp [verifyAndFillPaths, ← hc, ht, Except.map]
    exact ⟨hmain records hall, fun c => ⟨rfl, rfl, rfl, (hfill c).1, (hfill c).2⟩⟩

/-- Closed instance of `resolver_soundness`: with master key
`⟨1, some 2⟩`, the claimed record `("bogus", m/0/0)` hard-stops with an
integrity violation, while the correctly claimed record
`("1A342", m/0/0)` resolves to itself. -/
theorem resolver_soundness_witness :
    (∃ v, verifyAndFillPaths ⟨1, some 2⟩ [⟨"bogus", [0, 0]⟩] = .error v ∧
      v.recomputed = toAddress (derivePath ⟨1, some 2⟩ v.path) ∧
      v.claimed ≠ v.recomputed ∧
      (⟨v.claimed, v.path⟩ : ClaimedAddr) ∈
        [(⟨"bogus", [0, 0]⟩ : ClaimedAddr)]) ∧
    verifyAndFillPaths ⟨1, some 2⟩ [⟨"1A342", [0, 0]⟩]
      = .ok ([(⟨"1A342", [0, 0]⟩ : ClaimedAddr)].map (fillRecord ⟨1, some 2⟩)) :=
  ⟨(resolver_soundness ⟨1, some 2⟩ [⟨"bogus", [0, 0]⟩]).1
      ⟨⟨"bogus", [0, 0]⟩, by simp, by decide⟩,
    ((resolver_soundness ⟨1, some 2⟩ [⟨"1A342", [0, 0]⟩]).2
      (by intro c hc; simp at hc; subst hc; rfl)).1⟩

/-- C5: the key finder's search space is exactly chain 0 and chain 1 at
indices in `[starting_pos, starting_pos + depth)`; given a
private-capable master key the call returns (it is a total function, no
exception), and every target address that no candidate path derives to
ends up in the `unresolved` set of the result. -/
theorem keyfinder_bounded (pub_address_list : List String)
    (master_key : ExtendedKey) (starting_pos depth : Nat)
    (hpriv : master_key.privPart.isSome = true) :
    ∃ res, findHexkeypairs pub_address_list master_key starting_pos depth
        = .ok res ∧
      (∀ p ∈ finderPaths starting_pos depth,
        ∃ chain idx, p = [chain, idx] ∧ (chain = 0 ∨ chain = 1) ∧
          starting_pos ≤ idx ∧ idx < starting_pos + depth) ∧
      (∀ a ∈ pub_address_list,
        (∀ p ∈ finderPaths starting_pos depth,
          toAddress (derivePath master_key p) ≠ a) →
        a ∈ res.unresolved) := by
  obtain ⟨s, hs⟩ := Option.isSome_iff_exists.mp hpriv
  refine ⟨finderSearch pub_address_list master_key starting_pos depth,
    ?_, ?_, ?_⟩
  · simp only [findHexkeypairs, hs]
  · intro p hp
    simp only [finderPaths, List.mem_flatMap, List.mem_range] at hp
    obtain ⟨i, hi, hcase⟩ := hp
    simp only [List.mem_cons, List.not_mem_nil, or_false] at hcase
    rcases hcase with h | h
    · exact ⟨0, starting_pos + i, h, Or.inl rfl, by omega, by omega⟩
    · exact ⟨1, starting_pos + i, h, Or.inr rfl, by omega, by omega⟩
  · intro a ha hnone
    simp only [finderSearch, List.mem_filter, List.all_eq_true, bne_iff_ne]
    exact ⟨ha, fun p hp => by simpa using hnone p hp⟩

/-- Closed instance of `keyfinder_bounded`: searching for an address the
bounded grid cannot derive returns it in the unresolved set instead of
raising. -/
theorem keyfinder_bounded_witness :
    ∃ res, findHexkeypairs ["nosuch"] ⟨1, some 2⟩ 0 2 = .ok res ∧
      (∀ p ∈ finderPaths 0 2,
        ∃ chain idx, p = [chain, idx] ∧ (chain = 0 ∨ chain = 1) ∧
          0 ≤ idx ∧ idx < 0 + 2) ∧
      (∀ a ∈ ["nosuch"],
        (∀ p ∈ finderPaths 0 2, toAddress (derivePath ⟨1, some 2⟩ p) ≠ a) →
        a ∈ res.unresolved) :=
  keyfinder_bounded ["nosuch"] ⟨1, some 2⟩ 0 2 rfl

/-- C2: a proposal whose outputs are exactly the requested `{D: A}` plus
the change `{C: input_total - A - fee}` with the fee within bounds is
accepted; mutating the destination, the amount, the change address, or
adding an extra output each flips the verdict to Rejected with the
structured reason for that field (`OutputMismatch` for
destination/amount/extra output, `ChangeMismatch` for the change
address), and the two reasons carry distinct human-readable texts. -/
theorem verifier_completeness (cfg : FeeConfig) (A fee inputTotal : Int)
    (D C src : String)
    (hDC : D ≠ C)
    (hfee : feeWithinBounds cfg fee A = true)
    (hlo : 0 < inputTotal - A - fee) :
    verifyUnsignedTx cfg (sendRequestFor src D A C)
        (sendProposalFor src [⟨D, A⟩, ⟨C, inputTotal - A - fee⟩]
          fee inputTotal)
      = .accepted ∧
    (∀ Dm, Dm ≠ D →
      verifyUnsignedTx cfg (sendRequestFor src D A C)
          (sendProposalFor src [⟨Dm, A⟩, ⟨C, inputTotal - A - fee⟩]
            fee inputTotal)
        = .rejected .outputMismatch) ∧
    (∀ Am, Am ≠ A →
      verifyUnsignedTx cfg (sendRequestFor src D A C)
          (sendProposalFor src [⟨D, Am⟩, ⟨C, inputTotal - A - fee⟩]
            fee inputTotal)
        = .rejected .outputMismatch) ∧
    (∀ Cm, Cm ≠ C →
      verifyUnsignedTx cfg (sendRequestFor src D A C)
          (sendProposalFor src [⟨D, A⟩, ⟨Cm, inputTotal - A - fee⟩]
            fee inputTotal)
        = .rejected .changeMismatch) ∧
    (∀ E v,
      verifyUnsignedTx cfg (sendRequestFor src D A C)
          (sendProposalFor src
            [⟨D, A⟩, ⟨C, inputTotal - A - fee⟩, ⟨E, v⟩] fee inputTotal)
        = .rejected .outputMismatch) ∧
    reasonText .outputMismatch ≠ reasonText .changeMismatch := by
  have hCD : C ≠ D := hDC.symm
  have hlo0 : inputTotal - A - fee ≠ 0 := hlo.ne'
  refine ⟨?_, ?_, ?_, ?_, ?_, by decide⟩
  · simp [verifyUnsignedTx, sendRequestFor, sendProposalFor, removeAll,
      removeFirst, expectedExtras, transactedAmount, outTotal,
      TxOutput.mk.injEq, hCD, hlo0, hfee]
  · intro Dm hDm
    simp [verifyUnsignedTx, sendRequestFor, sendProposalFor, removeAll,
      removeFirst, expectedExtras, transactedAmount, outTotal,
      TxOutput.mk.injEq, hCD, hDm, hlo0, hfee]
  · intro Am hAm
    simp [verifyUnsignedTx, sendRequestFor, sendProposalFor, removeAll,
      removeFirst, expectedExtras, transactedAmount, outTotal,
      TxOutput.mk.injEq, hCD, hAm, hlo0, hfee]
  · intro Cm hCm
    simp [verifyUnsignedTx, sendRequestFor, sendProposalFor, removeAll,
      removeFirst, expectedExtras, transactedAmount, outTotal,
      TxOutput.mk.injEq, hCD, hCm, hlo0, hfee]
  · intro E v
    simp [verifyUnsignedTx, sendRequestFor, sendProposalFor, removeAll,
      removeFirst, expectedExtras, transactedAmount, outTotal,
      TxOutput.mk.injEq, hCD, hlo0, hfee]

/-- Closed instance of `verifier_completeness`: the exact requested
proposal (50000 to D, change 9000 to C, fee 1000 within a 10% bound) is
accepted, and redirecting the destination to E is rejected as an output
mismatch. -/
theorem verifier_completeness_witness :
    verifyUnsignedTx ⟨10, 100⟩ (sendRequestFor "s" "D" 50000 "C")
        (sendProposalFor "s" [⟨"D", 50000⟩, ⟨"C", 60000 - 50000 - 1000⟩]
          1000 60000)
      = .accepted ∧
    verifyUnsignedTx ⟨10, 100⟩ (sendRequestFor "s" "D" 50000 "C")
        (sendProposalFor "s" [⟨"E", 50000⟩, ⟨"C", 60000 - 50000 - 1000⟩]
          1000 60000)
      = .rejected .outputMismatch :=
  ⟨(verifier_completeness ⟨10, 100⟩ 50000 1000 60000 "D" "C" "s"
      (by decide) (by decide) (by decide)).1,
    (verifier_completeness ⟨10, 100⟩ 50000 1000 60000 "D" "C" "s"
      (by decide) (by decide) (by decide)).2.1 "E" (by decide)⟩

/-- C3: a fee that is negative or at least the configured maximum
fraction of the transacted amount can never yield an accepted proposal
(so the fail-closed pipeline never signs it), and on an otherwise
well-formed send proposal such a fee is rejected with
`FeeOutOfBounds`. -/
theorem fee_out_of_bounds_never_accepted :
    (∀ (cfg : FeeConfig) (req : SendRequest) (p : Proposal),
      feeWithinBounds cfg p.fee (transactedAmount req p) = false →
      verifyUnsignedTx cfg req p ≠ VerifyResult.accepted) ∧
    (∀ (cfg : FeeConfig) (A fee inputTotal : Int) (D C src : String),
      D ≠ C → 0 < inputTotal - A - fee →
      feeWithinBounds cfg fee A = false →
      verifyUnsignedTx cfg (sendRequestFor src D A C)
          (sendProposalFor src [⟨D, A⟩, ⟨C, inputTotal - A - fee⟩]
            fee inputTotal)
        = .rejected .feeOutOfBounds) := by
  constructor
  · intro cfg req p hbad hacc
    unfold verifyUnsignedTx at hacc
    repeat' split at hacc
    all_goals simp_all
  · intro cfg A fee inputTotal D C src hDC hlo hbad
    have hCD : C ≠ D := hDC.symm
    have hlo0 : inputTotal - A - fee ≠ 0 := hlo.ne'
    simp [verifyUnsignedTx, sendRequestFor, sendProposalFor, removeAll,
      removeFirst, expectedExtras, transactedAmount, outTotal,
      TxOutput.mk.injEq, hCD, hlo0, hbad]

/-- Closed instance of `fee_out_of_bounds_never_accepted`: a negative
fee of -1 satoshis on an otherwise correct send is not accepted and is
rejected with `FeeOutOfBounds`. -/
theorem fee_out_of_bounds_never_accepted_witness :
    verifyUnsignedTx ⟨10, 100⟩ (sendRequestFor "s" "D" 50000 "C")
        (sendProposalFor "s" [⟨"D", 50000⟩, ⟨"C", 60000 - 50000 - (-1)⟩]
          (-1) 60000)
      ≠ VerifyResult.accepted ∧
    verifyUnsignedTx ⟨10, 100⟩ (sendRequestFor "s" "D" 50000 "C")
        (sendProposalFor "s" [⟨"D", 50000⟩, ⟨"C", 60000 - 50000 - (-1)⟩]
          (-1) 60000)
      = .rejected .feeOutOfBounds :=
  ⟨fee_out_of_bounds_never_accepted.1 ⟨10, 100⟩
      (sendRequestFor "s" "D" 50000 "C")
      (sendProposalFor "s" [⟨"D", 50000⟩, ⟨"C", 60000 - 50000 - (-1)⟩]
        (-1) 60000) (by decide),
    fee_out_of_bounds_never_accepted.2 ⟨10, 100⟩ 50000 (-1) 60000 "D" "C"
      "s" (by decide) (by decide) (by decide)⟩

/-- C8: the sweep flow builds the transaction with no change address and
verifies it in sweep mode with no change address, and in sweep mode the
verifier only accepts proposals whose outputs are exactly one output to
the destination address — no change output. -/
theorem sweep_mode_no_change (pkey_addr dest_addr : String)
    (cfg : FeeConfig) (p : Proposal) :
    (sweepCreateTxCall dest_addr).changeAddress = none ∧
    (sweepVerifyRequest pkey_addr dest_addr).sweepFunds = true ∧
    (sweepVerifyRequest pkey_addr dest_addr).changeAddress = none ∧
    (verifyUnsignedTx cfg (sweepVerifyRequest pkey_addr dest_addr) p
        = .accepted →
      p.outputs.map TxOutput.address = [dest_addr] ∧
      p.outputs.length = 1) := by
  refine ⟨rfl, rfl, rfl, ?_⟩
  intro h
  simp only [verifyUnsignedTx, sweepVerifyRequest] at h
  split_ifs at h <;> simp_all
  have hmap : p.outputs.map TxOutput.address = [dest_addr] := by assumption
  have hlen := congrArg List.length hmap
  simpa using hlen

/-- Closed instance of `sweep_mode_no_change`: a concrete accepted sweep
proposal has exactly one output, to the destination, and no change. -/
theorem sweep_mode_no_change_witness :
    sweepProposalExample.outputs.map TxOutput.address = ["D"] ∧
    sweepProposalExample.outputs.length = 1 :=
  (sweep_mode_no_change "s" "D" ⟨10, 100⟩ sweepProposalExample).2.2.2
    (by decide)

/-- Closed instance of `signing_only_after_verification`: with the
verifier rejecting, neither flow signs or broadcasts; with the verifier
accepting (and the remaining steps succeeding), the send flow does reach
the signing step. -/
theorem signing_only_after_verification_witness :
    (Event.signTx ∉ sendFundsTrace ⟨true, true, 60000, false, false, true, true⟩ ∧
      Event.broadcastTx ∉
        sendFundsTrace ⟨true, true, 60000, false, false, true, true⟩) ∧
    (Event.signTx ∉ sweepFundsTrace ⟨true, false, false⟩ ∧
      Event.broadcastTx ∉ sweepFundsTrace ⟨true, false, false⟩) ∧
    (⟨true, true, 60000, false, true, true, true⟩ : SendEnv).verifyOk = true ∧
    (⟨true, false, true⟩ : SweepEnv).verifyOk = true :=
  ⟨(signing_only_after_verification
      ⟨true, true, 60000, false, false, true, true⟩ ⟨true, false, false⟩).1
      rfl,
    (signing_only_after_verification
      ⟨true, true, 60000, false, false, true, true⟩ ⟨true, false, false⟩).2.2.1
      rfl,
    (signing_only_after_verification
      ⟨true, true, 60000, false, true, true, true⟩ ⟨true, false, true⟩).2.1
      (by decide),
    (signing_only_after_verification
      ⟨true, true, 60000, false, true, true, true⟩ ⟨true, false, true⟩).2.2.2
      (by decide)⟩

end BCWallet
